import Mathlib

/-!
Shallow embedding of the asimovrpc Go client library.

The source under verification is a JSON-RPC 2.0 client: a transport
function `Call` that serializes one request envelope, performs one HTTP
POST, and decodes the response envelope; and a facade of typed
operations that decode the raw `result` payload into domain records
(blocks, transactions, receipts, syncing status) or surface errors.

JSON values are modelled as an inductive AST; the HTTP exchange is
modelled as an oracle value describing what the wire returned; the log
and the POSTs are returned explicitly as data so that temporal and
noninterference claims can be stated.
-/

namespace AsimovRpc

/-- JSON value AST. `json.RawMessage` payloads are modelled as parsed
JSON values; the byte-level checks `bytes.Equal(result, []byte("null"))`
and `bytes.Equal(result, []byte("false"))` in the source become
comparisons with `Json.null` and `Json.bool false`. -/
inductive Json where
  | null : Json
  | bool : Bool → Json
  | num : Int → Json
  | str : String → Json
  | arr : List Json → Json
  | obj : List (String × Json) → Json

/-! ## Numeric/Hex codec

Modelled from the spec: the helper functions `IntToHex`, `ParseInt` and
`ParseBigInt` of this repository are not under `src/`; the spec defines
the codec as conversion between non-negative integers and 0x-prefixed
lowercase hexadecimal strings with no superfluous leading zero digits
(zero is `0x0`), decoding failing with a `FormatError` when the prefix
is missing or a character is not a hexadecimal digit. -/

/-- Modelled from the spec: decode failure reasons of the hex codec
(`FormatError`). -/
inductive FormatError where
  | badStart : FormatError
  | badDigit : FormatError
  | emptyDigits : FormatError
deriving DecidableEq, Repr

/-- Lowercase hexadecimal digit character for a value below 16. -/
def hexDigitChar : Nat → Char
  | 0 => '0'
  | 1 => '1'
  | 2 => '2'
  | 3 => '3'
  | 4 => '4'
  | 5 => '5'
  | 6 => '6'
  | 7 => '7'
  | 8 => '8'
  | 9 => '9'
  | 10 => 'a'
  | 11 => 'b'
  | 12 => 'c'
  | 13 => 'd'
  | 14 => 'e'
  | _ => 'f'

/-- Numeric value of a lowercase hexadecimal digit character, `none` for
any character that is not one. -/
def hexDigitVal (c : Char) : Option Nat :=
  if 48 ≤ c.toNat ∧ c.toNat ≤ 57 then some (c.toNat - 48)
  else if 97 ≤ c.toNat ∧ c.toNat ≤ 102 then some (c.toNat - 87)
  else none

/-- A character is a lowercase hexadecimal digit. -/
def isLowerHexDigit (c : Char) : Bool :=
  (hexDigitVal c).isSome

/-- Fuel-driven core of the big-endian hexadecimal digit rendering; the
fuel only bounds recursion depth and is irrelevant once it exceeds the
argument (`toHexDigitsCore_fuel`). -/
def toHexDigitsCore : Nat → Nat → List Char
  | 0, n => [hexDigitChar n]
  | fuel + 1, n =>
    if n < 16 then [hexDigitChar n]
    else toHexDigitsCore fuel (n / 16) ++ [hexDigitChar (n % 16)]

/-- Big-endian hexadecimal digit list of a natural number, most
significant digit first, no leading zeros (zero is `['0']`). -/
def toHexDigits (n : Nat) : List Char :=
  toHexDigitsCore n n

lemma toHexDigitsCore_fuel :
    ∀ n fuel₁ fuel₂, n ≤ fuel₁ → n ≤ fuel₂ →
      toHexDigitsCore fuel₁ n = toHexDigitsCore fuel₂ n := by
  intro n
  induction n using Nat.strong_induction_on with
  | _ n ih =>
    intro fuel₁ fuel₂ h₁ h₂
    by_cases h16 : n < 16
    · cases fuel₁ <;> cases fuel₂ <;> simp [toHexDigitsCore, h16]
    · have h0 : 16 ≤ n := Nat.le_of_not_lt h16
      obtain ⟨f₁, rfl⟩ : ∃ f, fuel₁ = f + 1 :=
        ⟨fuel₁ - 1, by omega⟩
      obtain ⟨f₂, rfl⟩ : ∃ f, fuel₂ = f + 1 :=
        ⟨fuel₂ - 1, by omega⟩
      have hdiv : n / 16 < n := Nat.div_lt_self (by omega) (by decide)
      simp only [toHexDigitsCore, if_neg h16]
      rw [ih (n / 16) hdiv f₁ f₂ (by omega) (by omega)]

/-- Modelled from the spec: `hexEncode` (the `IntToHex` helper), a
0x-prefixed lowercase hexadecimal rendering with no leading zeros. -/
def hexEncode (n : Nat) : String :=
  String.mk ('0' :: 'x' :: toHexDigits n)

/-- Accumulating hexadecimal digit parser: folds digits into `acc`,
failing on the first character that is not a hexadecimal digit. -/
def decodeHexDigits : List Char → Nat → Except FormatError Nat
  | [], acc => .ok acc
  | c :: rest, acc =>
    match hexDigitVal c with
    | some d => decodeHexDigits rest (acc * 16 + d)
    | none => .error .badDigit

/-- Modelled from the spec: `hexDecode` (the `ParseInt` / `ParseBigInt`
helpers), failing with a `FormatError` when the `0x` prefix is missing,
the digit part is empty, or a character is not a hexadecimal digit. -/
def hexDecode (s : String) : Except FormatError Nat :=
  match s.data with
  | c₀ :: c₁ :: rest =>
    if c₀ = '0' ∧ c₁ = 'x' then
      if rest = [] then .error .emptyDigits
      else decodeHexDigits rest 0
    else .error .badStart
  | _ => .error .badStart

/-- A digit list has no superfluous leading zero: either it is exactly
`['0']` or its first digit is not `'0'`. -/
def noLeadingZeroDigits : List Char → Bool
  | [] => true
  | c :: rest => (c != '0') || rest.isEmpty

lemma toHexDigits_lt {n : Nat} (h : n < 16) :
    toHexDigits n = [hexDigitChar n] := by
  cases n with
  | zero => rfl
  | succ k => simp [toHexDigits, toHexDigitsCore, h]

lemma toHexDigits_ge {n : Nat} (h : ¬ n < 16) :
    toHexDigits n = toHexDigits (n / 16) ++ [hexDigitChar (n % 16)] := by
  have h0 : 16 ≤ n := Nat.le_of_not_lt h
  obtain ⟨k, rfl⟩ : ∃ k, n = k + 1 := ⟨n - 1, by omega⟩
  show toHexDigitsCore (k + 1) (k + 1) = _
  simp only [toHexDigitsCore, if_neg h]
  rw [toHexDigitsCore_fuel ((k + 1) / 16) k ((k + 1) / 16) (by omega) (Nat.le_refl _)]
  rfl

lemma hexDigitVal_hexDigitChar {n : Nat} (h : n < 16) :
    hexDigitVal (hexDigitChar n) = some n := by
  interval_cases n <;> decide

lemma toHexDigits_ne_nil (n : Nat) : toHexDigits n ≠ [] := by
  by_cases h : n < 16
  · rw [toHexDigits_lt h]
    simp
  · rw [toHexDigits_ge h]
    simp

lemma decodeHexDigits_append (l₁ l₂ : List Char) (acc : Nat) :
    decodeHexDigits (l₁ ++ l₂) acc =
      match decodeHexDigits l₁ acc with
      | .ok a => decodeHexDigits l₂ a
      | .error e => .error e := by
  induction l₁ generalizing acc with
  | nil => rfl
  | cons c rest ih =>
    simp only [List.cons_append, decodeHexDigits]
    cases hexDigitVal c with
    | none => rfl
    | some d => exact ih _

lemma decodeHexDigits_toHexDigits (n : Nat) :
    ∀ acc, decodeHexDigits (toHexDigits n) acc =
      .ok (acc * 16 ^ (toHexDigits n).length + n) := by
  induction n using Nat.strong_induction_on with
  | _ n ih =>
    intro acc
    by_cases h : n < 16
    · rw [toHexDigits_lt h]
      simp [decodeHexDigits, hexDigitVal_hexDigitChar h]
    · have hdiv : n / 16 < n :=
        Nat.div_lt_self (Nat.lt_of_lt_of_le (by decide) (Nat.le_of_not_lt h)) (by decide)
      rw [toHexDigits_ge h, decodeHexDigits_append, ih (n / 16) hdiv acc]
      have hmod : n % 16 < 16 := Nat.mod_lt _ (by decide)
      simp only [decodeHexDigits, hexDigitVal_hexDigitChar hmod]
      congr 1
      have hdm : n / 16 * 16 + n % 16 = n := by omega
      rw [List.length_append, List.length_singleton, pow_succ]
      calc (acc * 16 ^ (toHexDigits (n / 16)).length + n / 16) * 16 + n % 16
          = acc * (16 ^ (toHexDigits (n / 16)).length * 16) + (n / 16 * 16 + n % 16) := by
            ring
        _ = acc * (16 ^ (toHexDigits (n / 16)).length * 16) + n := by rw [hdm]

lemma hexDecode_hexEncode (n : Nat) : hexDecode (hexEncode n) = .ok n := by
  have h := decodeHexDigits_toHexDigits n 0
  simp only [Nat.zero_mul, Nat.zero_add] at h
  simp [hexDecode, hexEncode, toHexDigits_ne_nil n, h]

lemma toHexDigits_all_lower (n : Nat) :
    (toHexDigits n).all isLowerHexDigit = true := by
  induction n using Nat.strong_induction_on with
  | _ n ih =>
    by_cases h : n < 16
    · rw [toHexDigits_lt h]
      simp [isLowerHexDigit, hexDigitVal_hexDigitChar h]
    · have hdiv : n / 16 < n :=
        Nat.div_lt_self (Nat.lt_of_lt_of_le (by decide) (Nat.le_of_not_lt h)) (by decide)
      have hmod : n % 16 < 16 := Nat.mod_lt _ (by decide)
      rw [toHexDigits_ge h]
      simp [List.all_append, ih (n / 16) hdiv, isLowerHexDigit,
        hexDigitVal_hexDigitChar hmod]

lemma toHexDigits_head_ne_zero {n : Nat} (h : 0 < n) :
    ∀ c, (toHexDigits n).head? = some c → c ≠ '0' := by
  induction n using Nat.strong_induction_on with
  | _ n ih =>
    intro c hc
    by_cases h16 : n < 16
    · rw [toHexDigits_lt h16] at hc
      simp at hc
      subst hc
      interval_cases n <;> decide
    · have hdiv : n / 16 < n :=
        Nat.div_lt_self (Nat.lt_of_lt_of_le (by decide) (Nat.le_of_not_lt h16)) (by decide)
      have hpos : 0 < n / 16 := Nat.div_pos (Nat.le_of_not_lt h16) (by decide)
      rw [toHexDigits_ge h16] at hc
      rw [List.head?_append_of_ne_nil _ (toHexDigits_ne_nil (n / 16))] at hc
      exact ih (n / 16) hdiv hpos c hc

lemma noLeadingZero_toHexDigits (n : Nat) :
    noLeadingZeroDigits (toHexDigits n) = true := by
  rcases Nat.eq_zero_or_pos n with h0 | hpos
  · subst h0
    decide
  · cases hl : toHexDigits n with
    | nil => exact absurd hl (toHexDigits_ne_nil n)
    | cons c rest =>
      have hc : c ≠ '0' := by
        apply toHexDigits_head_ne_zero hpos
        rw [hl]
        rfl
      simp [noLeadingZeroDigits, hc]

/-! ## Transport: request/response envelopes and `Call`

Embedding of `asimovRequest`, `asimovResponse`, `AsimovError` and the
`Call` method of `AsimovRPC` (src/unnamed/part_000, lines 14-36 and
84-125).  The HTTP exchange — `client.Post`, `ioutil.ReadAll` and the
envelope `json.Unmarshal` — is modelled by an oracle value `Exchange`
saying what the wire returned; the POST that `Call` performs and the
debug log lines it emits are returned explicitly as data. -/

/-- `AsimovError`: the JSON-RPC error object, code and message. -/
structure AsimovError where
  code : Int
  message : String
deriving DecidableEq, Repr

/-- `asimovResponse`: the decoded response envelope. -/
structure AsimovResponse where
  id : Int
  jsonrpc : String
  result : Json
  error : Option AsimovError

/-- `asimovRequest`: the request envelope `Call` constructs. -/
structure AsimovRequest where
  id : Int
  jsonrpc : String
  method : String
  params : List Json

/-- `json.Marshal` of the request envelope: a JSON object with the four
tagged fields in struct order. -/
def marshalRequest (r : AsimovRequest) : Json :=
  .obj [("id", .num r.id), ("jsonrpc", .str r.jsonrpc),
        ("method", .str r.method), ("params", .arr r.params)]

/-- What the wire handed back as a response body: either bytes that fail
to unmarshal as an envelope, or bytes together with their parsed
envelope. `raw` carries the body text for the debug log. -/
inductive WireBody where
  | invalid (raw : String)
  | valid (raw : String) (resp : AsimovResponse)

/-- Oracle describing the outcome of the single HTTP exchange performed
by `Call`: the POST itself failed, reading the body failed, or a body
was obtained. -/
inductive Exchange where
  | postFailed (msg : String)
  | readFailed (msg : String)
  | body (b : WireBody)

/-- The error kinds `Call` and the facade operations can surface:
transport failures, envelope/target decode failures, the node's JSON-RPC
error object, and hex-format failures from the numeric codec. -/
inductive CallError where
  | transport (msg : String)
  | decode (msg : String)
  | remote (e : AsimovError)
  | format (e : FormatError)
deriving DecidableEq, Repr

/-- Client configuration: the target URL and the `Debug` flag of
`AsimovRPC` (the injected HTTP client is the `Exchange` oracle and the
logger is modelled by returning the log lines). -/
structure RpcConfig where
  url : String
  debug : Bool

/-- One HTTP POST performed by the client, as observable data. -/
structure PostEvent where
  url : String
  contentType : String
  body : Json

/-- Everything a `Call` invocation produces: the list of POSTs it
performed, the debug log lines it emitted, and its return value. -/
structure CallOutput where
  posts : List PostEvent
  logs : List String
  result : Except CallError Json

/-- `Call` (src/unnamed/part_000, lines 84-125): build the request
envelope with id 1 and jsonrpc "2.0", marshal it, POST it once with
content type "application/json", then read, optionally log, and
unmarshal the response envelope; a remote error object is returned as
the error, otherwise the raw result payload is returned. -/
def Call (rpc : RpcConfig) (method : String) (params : List Json)
    (wire : Exchange) : CallOutput :=
  let request : AsimovRequest := ⟨1, "2.0", method, params⟩
  let body := marshalRequest request
  let post : PostEvent := ⟨rpc.url, "application/json", body⟩
  match wire with
  | .postFailed m => ⟨[post], [], .error (.transport m)⟩
  | .readFailed m => ⟨[post], [], .error (.transport m)⟩
  | .body b =>
    let raw := match b with
      | .invalid r => r
      | .valid r _ => r
    let logs := if rpc.debug then [method ++ "\nRequest/Response: " ++ raw] else []
    match b with
    | .invalid _ => ⟨[post], logs, .error (.decode "invalid character in envelope")⟩
    | .valid _ resp =>
      match resp.error with
      | some e => ⟨[post], logs, .error (.remote e)⟩
      | none => ⟨[post], logs, .ok resp.result⟩

/-- `json.Unmarshal(result, target)` for a struct-typed target holding
`cur`: unmarshalling the literal `null` into a Go value is a no-op that
produces no error; otherwise the decoder either replaces the value or
fails leaving it as it was. -/
def goUnmarshal {α : Type} (dec : Json → Except String α) (cur : α)
    (j : Json) : α × Option String :=
  match j with
  | .null => (cur, none)
  | _ =>
    match dec j with
    | .ok v => (v, none)
    | .error m => (cur, some m)

/-- The lowercase `call` helper (src/unnamed/part_000, lines 65-76):
delegate to `Call`; on error return it with the target left at its zero
value; otherwise unmarshal the raw result into the target. The pair is
(final target value, error), mirroring Go's (mutated target, returned
error). -/
def callInto {α : Type} (rpc : RpcConfig) (method : String)
    (params : List Json) (dec : Json → Except String α) (zero : α)
    (wire : Exchange) : α × Option CallError :=
  match (Call rpc method params wire).result with
  | .error e => (zero, some e)
  | .ok result =>
    match goUnmarshal dec zero result with
    | (v, none) => (v, none)
    | (v, some m) => (v, some (.decode m))

/-! ## Domain records and their decoders

The type and helper definitions of this repository (`Transaction`,
`TransactionReceipt`, `Syncing`, `Block`, the proxy block shapes and the
field decoding they perform) are not under `src/`; they are modelled
from the spec, sections 3 and 4.4: plain records whose integer-bearing
fields are hex-decoded from 0x-strings, and a unified `Block` whose
transaction-list field is a tagged union of hash strings or full
records. -/

/-- Decoder for a scalar JSON string result. -/
def decodeString : Json → Except String String
  | .str s => .ok s
  | _ => .error "cannot unmarshal into string"

/-- Look up a field of a JSON object and require a string value. -/
def getStr (fs : List (String × Json)) (k : String) : Except String String :=
  match fs.lookup k with
  | some (.str s) => .ok s
  | _ => .error "expected string field"

/-- Look up a field of a JSON object holding a hex-encoded integer and
decode it. -/
def getHexNat (fs : List (String × Json)) (k : String) : Except String Nat :=
  match getStr fs k with
  | .error e => .error e
  | .ok s =>
    match hexDecode s with
    | .ok n => .ok n
    | .error _ => .error "invalid hex field"

/-- Modelled from the spec: the `Transaction` record (sender, recipient,
value, gas fields, hash); its type declaration is not under `src/`. -/
structure Transaction where
  hash : String
  sender : String
  recipient : String
  value : Nat
  gas : Nat
deriving DecidableEq, Repr

/-- The zero value `new(Transaction)` starts from. -/
def zeroTransaction : Transaction := ⟨"", "", "", 0, 0⟩

/-- Modelled from the spec: decoding a transaction object. -/
def decodeTransaction : Json → Except String Transaction
  | .obj fs =>
    match getStr fs "hash", getStr fs "from", getStr fs "to",
        getHexNat fs "value", getHexNat fs "gas" with
    | .ok h, .ok s, .ok r, .ok v, .ok g => .ok ⟨h, s, r, v, g⟩
    | _, _, _, _, _ => .error "cannot unmarshal transaction"
  | _ => .error "cannot unmarshal transaction"

/-- Modelled from the spec: the `TransactionReceipt` record
(transaction hash, block linkage, gas used, status); its type
declaration is not under `src/`. -/
structure TransactionReceipt where
  transactionHash : String
  blockNumber : Nat
  gasUsed : Nat
  status : String
deriving DecidableEq, Repr

/-- The zero value `new(TransactionReceipt)` starts from. -/
def zeroReceipt : TransactionReceipt := ⟨"", 0, 0, ""⟩

/-- Modelled from the spec: decoding a receipt object. -/
def decodeReceipt : Json → Except String TransactionReceipt
  | .obj fs =>
    match getStr fs "transactionHash", getHexNat fs "blockNumber",
        getHexNat fs "gasUsed", getStr fs "status" with
    | .ok h, .ok b, .ok g, .ok s => .ok ⟨h, b, g, s⟩
    | _, _, _, _ => .error "cannot unmarshal receipt"
  | _ => .error "cannot unmarshal receipt"

/-- Modelled from the spec: the `Syncing` status record carrying the
progress fields; its type declaration is not under `src/`. The zero
value (all fields zero) is the "not syncing" status. -/
structure Syncing where
  startingBlock : Nat
  currentBlock : Nat
  highestBlock : Nat
deriving DecidableEq, Repr

/-- The zero value `new(Syncing)` starts from: the "not syncing"
status with zero progress fields. -/
def zeroSyncing : Syncing := ⟨0, 0, 0⟩

/-- Modelled from the spec: decoding the structured syncing-progress
object with hex-encoded integer fields. -/
def decodeSyncing : Json → Except String Syncing
  | .obj fs =>
    match getHexNat fs "startingBlock", getHexNat fs "currentBlock",
        getHexNat fs "highestBlock" with
    | .ok s, .ok c, .ok h => .ok ⟨s, c, h⟩
    | _, _, _ => .error "cannot unmarshal syncing"
  | _ => .error "cannot unmarshal syncing"

/-- Modelled from the spec: the variant-typed transaction-list field of
a `Block` — either transaction hash strings or full transaction
records. -/
inductive BlockTransactions where
  | hashes : List String → BlockTransactions
  | full : List Transaction → BlockTransactions
deriving DecidableEq, Repr

/-- Modelled from the spec: the unified `Block` record; its type
declaration is not under `src/`. -/
structure Block where
  number : Nat
  hash : String
  parentHash : String
  miner : String
  timestamp : Nat
  transactions : BlockTransactions
deriving DecidableEq, Repr

/-- Decode a JSON array of full transaction objects. -/
def decodeTransactionList : List Json → Except String (List Transaction)
  | [] => .ok []
  | j :: rest =>
    match decodeTransaction j, decodeTransactionList rest with
    | .ok t, .ok ts => .ok (t :: ts)
    | _, _ => .error "cannot unmarshal transaction list"

/-- Decode a JSON array of transaction hash strings. -/
def decodeStringList : List Json → Except String (List String)
  | [] => .ok []
  | .str s :: rest =>
    match decodeStringList rest with
    | .ok ss => .ok (s :: ss)
    | .error e => .error e
  | _ :: _ => .error "cannot unmarshal hash list"

/-- Modelled from the spec: common decoding of the scalar block fields,
parameterized by how the "transactions" array is decoded. -/
def decodeBlockWith (decTx : List Json → Except String BlockTransactions) :
    Json → Except String Block
  | .obj fs =>
    match getHexNat fs "number", getStr fs "hash", getStr fs "parentHash",
        getStr fs "miner", getHexNat fs "timestamp" with
    | .ok n, .ok h, .ok p, .ok m, .ok t =>
      match fs.lookup "transactions" with
      | some (.arr js) =>
        match decTx js with
        | .ok txs => .ok ⟨n, h, p, m, t, txs⟩
        | .error e => .error e
      | _ => .error "expected transactions array"
    | _, _, _, _, _ => .error "cannot unmarshal block"
  | _ => .error "cannot unmarshal block"

/-- Modelled from the spec: the proxy block shape embedding full
transaction records (`proxyBlockWithTransactions` and its `toBlock`). -/
def proxyBlockWithTransactions : Json → Except String Block :=
  decodeBlockWith (fun js =>
    match decodeTransactionList js with
    | .ok ts => .ok (.full ts)
    | .error e => .error e)

/-- Modelled from the spec: the proxy block shape embedding only
transaction hashes (`proxyBlockWithoutTransactions` and its
`toBlock`). -/
def proxyBlockWithoutTransactions : Json → Except String Block :=
  decodeBlockWith (fun js =>
    match decodeStringList js with
    | .ok ss => .ok (.hashes ss)
    | .error e => .error e)

/-! ## Method facade operations

Each operation mirrors its Go counterpart in src/unnamed/part_000.
Go's `(value, error)` multiple return becomes a pair whose first
component is the value the operation hands back (with `Option` for
pointer returns, `none` = nil pointer) and whose second component is the
optional error. -/

/-- `Web3ClientVersion` (line 133): string result passthrough. -/
def Web3ClientVersion (rpc : RpcConfig) (wire : Exchange) :
    String × Option CallError :=
  callInto rpc "web3_clientVersion" [] decodeString "" wire

/-- `AsimovBlockNumber` (line 242): decode a string result, then
hex-parse it (`ParseInt`, modelled from the spec as `hexDecode`). -/
def AsimovBlockNumber (rpc : RpcConfig) (wire : Exchange) :
    Nat × Option CallError :=
  match callInto rpc "flow_blockNumber" [] decodeString "" wire with
  | (_, some e) => (0, some e)
  | (response, none) =>
    match hexDecode response with
    | .ok n => (n, none)
    | .error fe => (0, some (.format fe))

/-- `AsimovGetBalance` (line 252): decode a string result, then
hex-parse it (`ParseBigInt`, modelled from the spec as `hexDecode`). -/
def AsimovGetBalance (rpc : RpcConfig) (address block : String)
    (wire : Exchange) : Nat × Option CallError :=
  match callInto rpc "flow_getBalance" [.str address, .str block]
      decodeString "" wire with
  | (_, some e) => (0, some e)
  | (response, none) =>
    match hexDecode response with
    | .ok n => (n, none)
    | .error fe => (0, some (.format fe))

/-- `AsimovSyncing` (lines 183-194): raw call; on error return nil; if
the raw result is the literal `false` return the fresh zero `Syncing`;
otherwise unmarshal the result into it and return it together with any
unmarshal error. -/
def AsimovSyncing (rpc : RpcConfig) (wire : Exchange) :
    Option Syncing × Option CallError :=
  match (Call rpc "flow_syncing" [] wire).result with
  | .error e => (none, some e)
  | .ok result =>
    match result with
    | .bool false => (some zeroSyncing, none)
    | _ =>
      match goUnmarshal decodeSyncing zeroSyncing result with
      | (v, none) => (some v, none)
      | (v, some m) => (some v, some (.decode m))

/-- `getBlock` (lines 377-400): raw call; on error return nil; if the
raw result is the literal `null` return (nil, nil); otherwise select the
proxy shape by the `withTransactions` flag and decode. -/
def getBlock (rpc : RpcConfig) (method : String) (withTransactions : Bool)
    (params : List Json) (wire : Exchange) :
    Option Block × Option CallError :=
  match (Call rpc method params wire).result with
  | .error e => (none, some e)
  | .ok result =>
    match result with
    | .null => (none, none)
    | _ =>
      let response := if withTransactions then proxyBlockWithTransactions
        else proxyBlockWithoutTransactions
      match response result with
      | .error m => (none, some (.decode m))
      | .ok block => (some block, none)

/-- `AsimovGetBlockByHash` (line 403). -/
def AsimovGetBlockByHash (rpc : RpcConfig) (hash : String)
    (withTransactions : Bool) (wire : Exchange) :
    Option Block × Option CallError :=
  getBlock rpc "flow_getBlockByHash" withTransactions
    [.str hash, .bool withTransactions] wire

/-- `AsimovGetBlockByNumber` (line 408); the block number parameter is
hex-encoded by `IntToHex` (modelled from the spec as `hexEncode`). -/
def AsimovGetBlockByNumber (rpc : RpcConfig) (number : Nat)
    (withTransactions : Bool) (wire : Exchange) :
    Option Block × Option CallError :=
  getBlock rpc "flow_getBlockByNumber" withTransactions
    [.str (hexEncode number), .bool withTransactions] wire

/-- `getTransaction` (lines 412-417): allocate a fresh zero
`Transaction`, `call` into it, and return the (always non-nil) pointer
together with the error. -/
def getTransaction (rpc : RpcConfig) (method : String) (params : List Json)
    (wire : Exchange) : Option Transaction × Option CallError :=
  match callInto rpc method params decodeTransaction zeroTransaction wire with
  | (tx, err) => (some tx, err)

/-- `AsimovGetTransactionByHash` (line 420). -/
def AsimovGetTransactionByHash (rpc : RpcConfig) (hash : String)
    (wire : Exchange) : Option Transaction × Option CallError :=
  getTransaction rpc "flow_getTransactionByHash" [.str hash] wire

/-- `AsimovGetTransactionReceipt` (lines 436-445): `call` into a fresh
zero receipt; on error return (nil, err); otherwise return the
receipt. -/
def AsimovGetTransactionReceipt (rpc : RpcConfig) (hash : String)
    (wire : Exchange) : Option TransactionReceipt × Option CallError :=
  match callInto rpc "flow_getTransactionReceipt" [.str hash] decodeReceipt
      zeroReceipt wire with
  | (_, some e) => (none, some e)
  | (receipt, none) => (some receipt, none)

/-! ## Fixture builders and decoding lemmas -/

/-- A response exchange whose envelope carries an error object. -/
def errorWire (raw : String) (i : Int) (jr : String) (payload : Json)
    (e : AsimovError) : Exchange :=
  .body (.valid raw ⟨i, jr, payload, some e⟩)

/-- A successful response exchange carrying a result payload. -/
def resultWire (raw : String) (i : Int) (jr : String) (payload : Json) :
    Exchange :=
  .body (.valid raw ⟨i, jr, payload, none⟩)

/-- JSON rendering of a transaction record, for building fixtures. -/
def txToJson (t : Transaction) : Json :=
  .obj [("hash", .str t.hash), ("from", .str t.sender),
        ("to", .str t.recipient), ("value", .str (hexEncode t.value)),
        ("gas", .str (hexEncode t.gas))]

/-- A block payload with given scalar fields and transactions array. -/
def blockFixture (number : Nat) (hash parentHash miner : String)
    (timestamp : Nat) (txs : Json) : Json :=
  .obj [("number", .str (hexEncode number)), ("hash", .str hash),
        ("parentHash", .str parentHash), ("miner", .str miner),
        ("timestamp", .str (hexEncode timestamp)), ("transactions", txs)]

lemma decodeTransaction_txToJson (t : Transaction) :
    decodeTransaction (txToJson t) = .ok t := by
  simp [decodeTransaction, txToJson, getStr, getHexNat, List.lookup,
    hexDecode_hexEncode]

lemma decodeTransactionList_map (ts : List Transaction) :
    decodeTransactionList (ts.map txToJson) = .ok ts := by
  induction ts with
  | nil => rfl
  | cons t rest ih =>
    simp [decodeTransactionList, decodeTransaction_txToJson, ih]

lemma decodeStringList_map (ss : List String) :
    decodeStringList (ss.map Json.str) = .ok ss := by
  induction ss with
  | nil => rfl
  | cons s rest ih => simp [decodeStringList, ih]

lemma proxyBlockWithTransactions_fixture (number : Nat)
    (hash parentHash miner : String) (timestamp : Nat)
    (txs : List Transaction) :
    proxyBlockWithTransactions
      (blockFixture number hash parentHash miner timestamp
        (.arr (txs.map txToJson)))
      = .ok ⟨number, hash, parentHash, miner, timestamp, .full txs⟩ := by
  simp [proxyBlockWithTransactions, decodeBlockWith, blockFixture, getStr,
    getHexNat, List.lookup, hexDecode_hexEncode, decodeTransactionList_map]

lemma proxyBlockWithoutTransactions_fixture (number : Nat)
    (hash parentHash miner : String) (timestamp : Nat) (hs : List String) :
    proxyBlockWithoutTransactions
      (blockFixture number hash parentHash miner timestamp
        (.arr (hs.map Json.str)))
      = .ok ⟨number, hash, parentHash, miner, timestamp, .hashes hs⟩ := by
  simp [proxyBlockWithoutTransactions, decodeBlockWith, blockFixture, getStr,
    getHexNat, List.lookup, hexDecode_hexEncode, decodeStringList_map]

/-! ## Claim theorems -/

/-- C1: for every response envelope carrying a JSON-RPC error object,
each Method Facade operation returns that error with its numeric code
and message verbatim, and the accompanying value is the operation's
fixed default, carrying nothing of the response payload: no partial
result. -/
theorem c1_remote_error_verbatim (rpc : RpcConfig) (code : Int)
    (msg raw jr addr blk hash : String) (i : Int) (payload : Json)
    (n : Nat) (wtx : Bool) :
    Web3ClientVersion rpc (errorWire raw i jr payload ⟨code, msg⟩)
      = ("", some (.remote ⟨code, msg⟩)) ∧
    AsimovBlockNumber rpc (errorWire raw i jr payload ⟨code, msg⟩)
      = (0, some (.remote ⟨code, msg⟩)) ∧
    AsimovGetBalance rpc addr blk (errorWire raw i jr payload ⟨code, msg⟩)
      = (0, some (.remote ⟨code, msg⟩)) ∧
    AsimovSyncing rpc (errorWire raw i jr payload ⟨code, msg⟩)
      = (none, some (.remote ⟨code, msg⟩)) ∧
    AsimovGetBlockByHash rpc hash wtx (errorWire raw i jr payload ⟨code, msg⟩)
      = (none, some (.remote ⟨code, msg⟩)) ∧
    AsimovGetBlockByNumber rpc n wtx (errorWire raw i jr payload ⟨code, msg⟩)
      = (none, some (.remote ⟨code, msg⟩)) ∧
    AsimovGetTransactionByHash rpc hash (errorWire raw i jr payload ⟨code, msg⟩)
      = (some zeroTransaction, some (.remote ⟨code, msg⟩)) ∧
    AsimovGetTransactionReceipt rpc hash (errorWire raw i jr payload ⟨code, msg⟩)
      = (none, some (.remote ⟨code, msg⟩)) :=
  ⟨rfl, rfl, rfl, rfl, rfl, rfl, rfl, rfl⟩

/-- C2, counterexample: on a response whose result payload is the
literal `null`, the transaction lookup does not yield an explicit absent
outcome — it returns the zero-valued record (every field zero) with no
error, because `getTransaction` never performs the null check that
`getBlock` performs and unmarshalling `null` into a record is a no-op. -/
theorem c2_counterexample :
    AsimovGetTransactionByHash ⟨"http://127.0.0.1:8545", false⟩ "0xdead"
        (resultWire "null" 1 "2.0" .null)
      = (some ⟨"", "", "", 0, 0⟩, none) := rfl

/-- C2, amended: on a literal `null` result payload, the block lookups
yield an explicit absent outcome (nil block, no error), but the
transaction lookup and the receipt lookup instead return a zero-valued
record with no error. -/
theorem c2_amended_null_outcomes (rpc : RpcConfig) (hash raw jr : String)
    (n : Nat) (wtx : Bool) (i : Int) :
    AsimovGetBlockByHash rpc hash wtx (resultWire raw i jr .null)
      = (none, none) ∧
    AsimovGetBlockByNumber rpc n wtx (resultWire raw i jr .null)
      = (none, none) ∧
    AsimovGetTransactionByHash rpc hash (resultWire raw i jr .null)
      = (some zeroTransaction, none) ∧
    AsimovGetTransactionReceipt rpc hash (resultWire raw i jr .null)
      = (some zeroReceipt, none) :=
  ⟨rfl, rfl, rfl, rfl⟩

/-- C3: on a literal `null` result payload, both block lookup
operations return the explicit absent outcome — nil block and no
error — not a zero-valued `Block` record. -/
theorem c3_block_null_absent (rpc : RpcConfig) (hash raw jr : String)
    (n : Nat) (wtx : Bool) (i : Int) :
    AsimovGetBlockByHash rpc hash wtx (resultWire raw i jr .null)
      = ((none : Option Block), none) ∧
    AsimovGetBlockByNumber rpc n wtx (resultWire raw i jr .null)
      = ((none : Option Block), none) :=
  ⟨rfl, rfl⟩

/-- C4: on a result payload that is the literal boolean `false`, the
syncing operation returns the "not syncing" status with all progress
fields zero and no error; on the structured payload with hex fields
0x0/0x5/0xa it returns decoded integer progress fields 0, 5, 10. -/
theorem c4_syncing_decoder (rpc : RpcConfig) (raw jr : String) (i : Int) :
    AsimovSyncing rpc (resultWire raw i jr (.bool false))
      = (some ⟨0, 0, 0⟩, none) ∧
    AsimovSyncing rpc (resultWire raw i jr
        (.obj [("startingBlock", .str "0x0"), ("currentBlock", .str "0x5"),
               ("highestBlock", .str "0xa")]))
      = (some ⟨0, 5, 10⟩, none) :=
  ⟨rfl, rfl⟩

/-- C5: the block decoder shape is selected by the caller-supplied
`withTransactions` flag alone; against block payloads with identical
scalar fields, the flag set true decodes the transactions array into
full transaction records and the flag set false decodes it into hash
strings, for both block lookup operations. -/
theorem c5_block_decoder_flag (rpc : RpcConfig)
    (bhash raw jr hash parentHash miner : String) (i : Int)
    (number timestamp bnum : Nat) (txs : List Transaction)
    (hs : List String) :
    AsimovGetBlockByHash rpc bhash true (resultWire raw i jr
        (blockFixture number hash parentHash miner timestamp
          (.arr (txs.map txToJson))))
      = (some ⟨number, hash, parentHash, miner, timestamp, .full txs⟩, none) ∧
    AsimovGetBlockByHash rpc bhash false (resultWire raw i jr
        (blockFixture number hash parentHash miner timestamp
          (.arr (hs.map Json.str))))
      = (some ⟨number, hash, parentHash, miner, timestamp, .hashes hs⟩, none) ∧
    AsimovGetBlockByNumber rpc bnum true (resultWire raw i jr
        (blockFixture number hash parentHash miner timestamp
          (.arr (txs.map txToJson))))
      = (some ⟨number, hash, parentHash, miner, timestamp, .full txs⟩, none) ∧
    AsimovGetBlockByNumber rpc bnum false (resultWire raw i jr
        (blockFixture number hash parentHash miner timestamp
          (.arr (hs.map Json.str))))
      = (some ⟨number, hash, parentHash, miner, timestamp, .hashes hs⟩, none) := by
  have h1 := proxyBlockWithTransactions_fixture number hash parentHash miner
    timestamp txs
  have h2 := proxyBlockWithoutTransactions_fixture number hash parentHash miner
    timestamp hs
  simp only [blockFixture] at h1 h2
  refine ⟨?_, ?_, ?_, ?_⟩ <;>
    simp [AsimovGetBlockByHash, AsimovGetBlockByNumber, getBlock, Call,
      resultWire, blockFixture, h1, h2]

/-- C6: for every method name and ordered parameter list, the request
body `Call` serializes and POSTs is a JSON-RPC 2.0 envelope with id 1,
jsonrpc "2.0", exactly the given method name and the given parameters in
the given order. -/
theorem c6_request_envelope (rpc : RpcConfig) (method : String)
    (params : List Json) (wire : Exchange) :
    (Call rpc method params wire).posts
      = [⟨rpc.url, "application/json",
          .obj [("id", .num 1), ("jsonrpc", .str "2.0"),
                ("method", .str method), ("params", .arr params)]⟩] := by
  cases wire with
  | postFailed m => rfl
  | readFailed m => rfl
  | body b =>
    cases b with
    | invalid raw => rfl
    | valid raw resp =>
      obtain ⟨i, jr, res, err⟩ := resp
      cases err <;> rfl

/-- C8: every invocation of `Call` performs exactly one HTTP POST, with
a JSON content type; there is no retry, and a transport failure, an
unreadable body, a malformed envelope and a remote error object are each
surfaced to the caller as the single returned error. -/
theorem c8_single_post_no_retry (rpc : RpcConfig) (method : String)
    (params : List Json) (wire : Exchange) :
    (Call rpc method params wire).posts.length = 1 ∧
    (Call rpc method params wire).posts.map PostEvent.contentType
      = ["application/json"] ∧
    (∀ m, (Call rpc method params (.postFailed m)).result
      = .error (.transport m)) ∧
    (∀ m, (Call rpc method params (.readFailed m)).result
      = .error (.transport m)) ∧
    (∀ raw, (Call rpc method params (.body (.invalid raw))).result
      = .error (.decode "invalid character in envelope")) ∧
    (∀ raw jr payload code msg, ∀ i : Int,
      (Call rpc method params
          (.body (.valid raw ⟨i, jr, payload, some ⟨code, msg⟩⟩))).result
        = .error (.remote ⟨code, msg⟩)) := by
  refine ⟨?_, ?_, fun m => rfl, fun m => rfl, fun raw => rfl,
    fun raw jr payload code msg i => rfl⟩ <;>
  · cases wire with
    | postFailed m => rfl
    | readFailed m => rfl
    | body b =>
      cases b with
      | invalid raw => rfl
      | valid raw resp =>
        obtain ⟨i, jr, res, err⟩ := resp
        cases err <;> rfl

/-- C9: the value and error returned by `Call` are identical whether the
`Debug` flag is true or false — debug logging never alters control flow,
the POST performed, or the returned result. -/
theorem c9_debug_noninterference (url : String) (d₁ d₂ : Bool)
    (method : String) (params : List Json) (wire : Exchange) :
    (Call ⟨url, d₁⟩ method params wire).result
      = (Call ⟨url, d₂⟩ method params wire).result ∧
    (Call ⟨url, d₁⟩ method params wire).posts
      = (Call ⟨url, d₂⟩ method params wire).posts := by
  cases wire with
  | postFailed m => exact ⟨rfl, rfl⟩
  | readFailed m => exact ⟨rfl, rfl⟩
  | body b =>
    cases b with
    | invalid raw => exact ⟨rfl, rfl⟩
    | valid raw resp =>
      obtain ⟨i, jr, res, err⟩ := resp
      cases err <;> exact ⟨rfl, rfl⟩

/-- C10: `Call` never validates the response envelope's id or jsonrpc
fields: its return value is unchanged under any alteration of those two
fields, and with no error object present the result payload is returned
whatever id (including one different from the request's id 1) and
jsonrpc tag the envelope carries. -/
theorem c10_no_envelope_validation (rpc : RpcConfig) (method : String)
    (params : List Json) (raw raw' jr jr' : String) (i i' : Int)
    (payload : Json) (err : Option AsimovError) :
    (Call rpc method params (.body (.valid raw ⟨i, jr, payload, err⟩))).result
      = (Call rpc method params
          (.body (.valid raw' ⟨i', jr', payload, err⟩))).result ∧
    (∀ raw₂ jr₂, ∀ i₂ : Int,
      (Call rpc method params
          (.body (.valid raw₂ ⟨i₂, jr₂, payload, none⟩))).result
        = .ok payload) := by
  cases err <;> exact ⟨rfl, fun raw₂ jr₂ i₂ => rfl⟩

/-- C7: for every non-negative integer `n` (covering both the bounded
machine-integer range and the arbitrary-precision codec),
`hexDecode (hexEncode n) = n`; `hexEncode n` is the `0x` prefix followed
by lowercase hexadecimal digits with no superfluous leading zero digit,
and zero encodes as `0x0`. -/
theorem c7_hex_roundtrip (n : Nat) :
    hexDecode (hexEncode n) = .ok n ∧
    (hexEncode n).data = '0' :: 'x' :: toHexDigits n ∧
    (toHexDigits n).all isLowerHexDigit = true ∧
    noLeadingZeroDigits (toHexDigits n) = true ∧
    hexEncode 0 = "0x0" :=
  ⟨hexDecode_hexEncode n, rfl, toHexDigits_all_lower n,
    noLeadingZero_toHexDigits n, rfl⟩

end AsimovRpc
